import Mathlib

/-!
Verification of the 5G NR UCI codec (lib/src/phy/phch/uci_nr.c).

The definitions below are a shallow embedding of the C source: each C
function that the claims touch is translated into a Lean function with the
same name (where Lean allows it), with machine integers modelled as Nat/Int
and buffers as lists.  External primitives that the file treats as black
boxes (polar encoder/decoder kernel, rate matching, CRC, CSI pack/unpack)
are not modelled; the embedding stops at the data handed to them.
Constants and lookup tables that live in headers outside the provided
sources (error codes, modulation orders, SRSLTE_UCI_NR_MAX_NOF_BITS,
SRSLTE_FEC_BLOCK_MAX_NOF_BITS, the SRSLTE_CEIL macro) are modelled from the
specification and marked as such in their doc comments.
-/

/-- Modelled from the spec: the bit sentinels of the encoder output alphabet
(UCI_BIT_0, UCI_BIT_1, UCI_BIT_REPETITION, UCI_BIT_PLACEHOLDER from
uci_cfg.h, which is not among the provided sources).  Only their identity
matters to the claims, not their numeric values. -/
inductive UciBit where
  | b0 : UciBit
  | b1 : UciBit
  | rep : UciBit
  | ph : UciBit
deriving DecidableEq, Repr

/-- Modelled from the spec: the modulation orders handled by the switch
statements of uci_nr.c (srslte_mod_t without SRSLTE_MOD_NITEMS). -/
inductive Modulation where
  | bpsk : Modulation
  | qpsk : Modulation
  | qam16 : Modulation
  | qam64 : Modulation
  | qam256 : Modulation
deriving DecidableEq, Repr

/-- Modelled from the spec: srslte_mod_bits_x_symbol, the modulation order
table Qm (1 for pi/2-BPSK, 2 for QPSK, 4/6/8 for 16/64/256-QAM). -/
def bitsPerSymbol : Modulation → Nat
  | Modulation.bpsk => 1
  | Modulation.qpsk => 2
  | Modulation.qam16 => 4
  | Modulation.qam64 => 6
  | Modulation.qam256 => 8

/-- Modelled from the spec: the SRSLTE_SUCCESS return code (0). -/
def SRSLTE_SUCCESS : Int := 0

/-- Modelled from the spec: the generic SRSLTE_ERROR return code (negative). -/
def SRSLTE_ERROR : Int := -1

/-- Modelled from the spec: the largest UCI payload, MAX_UCI_BITS = 1706
(SRSLTE_UCI_NR_MAX_NOF_BITS in a header outside the provided sources). -/
def SRSLTE_UCI_NR_MAX_NOF_BITS : Nat := 1706

/-- Modelled from the spec: the top of the small-block class, 11 bits
(SRSLTE_FEC_BLOCK_MAX_NOF_BITS in a header outside the provided sources). -/
def SRSLTE_FEC_BLOCK_MAX_NOF_BITS : Nat := 11

/-- Embedding of srslte_uci_nr_crc_len: (A <= 11) ? 0 : (A < 20) ? 6 : 11. -/
def srslte_uci_nr_crc_len (A : Nat) : Nat :=
  if A ≤ 11 then 0 else if A < 20 then 6 else 11

/-- Embedding of the ternary expressions that turn a payload byte into a
UCI bit sentinel: (byte == 0) ? UCI_BIT_0 : UCI_BIT_1. -/
def uciBitOf (b : Nat) : UciBit := if b = 0 then UciBit.b0 else UciBit.b1

/-- Per-symbol emission pattern of uci_nr_encode_1bit, one list entry per
o[i++] assignment of the switch case for each modulation.  The 64QAM case
of the source wraps the same six assignments in a redundant second
while (i < E) loop, which does not change the emitted sequence. -/
def pattern1bit (m : Modulation) (c0 : UciBit) : List UciBit :=
  match m with
  | Modulation.bpsk => [c0]
  | Modulation.qpsk => [c0, UciBit.rep]
  | Modulation.qam16 => [c0, UciBit.rep, UciBit.ph, UciBit.ph]
  | Modulation.qam64 =>
      [c0, UciBit.rep, UciBit.ph, UciBit.ph, UciBit.ph, UciBit.ph]
  | Modulation.qam256 =>
      [c0, UciBit.rep, UciBit.ph, UciBit.ph, UciBit.ph, UciBit.ph,
       UciBit.ph, UciBit.ph]

/-- Per-group emission pattern of uci_nr_encode_2bit, one list entry per
o[i++] assignment of the switch case for each modulation. -/
def pattern2bit (m : Modulation) (c0 c1 c2 : UciBit) : List UciBit :=
  match m with
  | Modulation.bpsk => [c0, c1, c2]
  | Modulation.qpsk => [c0, c1, c2]
  | Modulation.qam16 =>
      [c0, c1, UciBit.ph, UciBit.ph,
       c2, c0, UciBit.ph, UciBit.ph,
       c1, c2, UciBit.ph, UciBit.ph]
  | Modulation.qam64 =>
      [c0, c1, UciBit.ph, UciBit.ph, UciBit.ph, UciBit.ph,
       c2, c0, UciBit.ph, UciBit.ph, UciBit.ph, UciBit.ph,
       c1, c2, UciBit.ph, UciBit.ph, UciBit.ph, UciBit.ph]
  | Modulation.qam256 =>
      [c0, c1, UciBit.ph, UciBit.ph, UciBit.ph, UciBit.ph, UciBit.ph, UciBit.ph,
       c2, c0, UciBit.ph, UciBit.ph, UciBit.ph, UciBit.ph, UciBit.ph, UciBit.ph,
       c1, c2, UciBit.ph, UciBit.ph, UciBit.ph, UciBit.ph, UciBit.ph, UciBit.ph]

/-- Length of the A=1 pattern per modulation (equals Qm in the source). -/
def pattern1len : Modulation → Nat
  | Modulation.bpsk => 1
  | Modulation.qpsk => 2
  | Modulation.qam16 => 4
  | Modulation.qam64 => 6
  | Modulation.qam256 => 8

/-- Length of the A=2 pattern per modulation (3 symbols of Qm bits, except
that BPSK and QPSK share the 3-entry case). -/
def pattern2len : Modulation → Nat
  | Modulation.bpsk => 3
  | Modulation.qpsk => 3
  | Modulation.qam16 => 12
  | Modulation.qam64 => 18
  | Modulation.qam256 => 24

/-- Embedding of the while (i < E) emission loops of uci_nr_encode_1bit and
uci_nr_encode_2bit: while i < E the whole pattern is appended and i advances
by its length.  The fuel argument only bounds the number of iterations; the
callers pass fuel = E, which suffices because every pattern is nonempty, so
the C loop performs at most E iterations. -/
def encodeLoop : Nat → List UciBit → Nat → Nat → List UciBit
  | 0, _, _, _ => []
  | fuel + 1, pat, E, i =>
      if i < E then pat ++ encodeLoop fuel pat E (i + pat.length) else []

/-- Embedding of uci_nr_encode_1bit: c0 is bit_sequence[0] turned into a
sentinel, the switch emits the per-modulation pattern until i >= E, and the
function returns E.  The returned pair is (bytes written to o, return
value). -/
def uci_nr_encode_1bit (m : Modulation) (b : Nat) (E : Nat) :
    List UciBit × Int :=
  (encodeLoop E (pattern1bit m (uciBitOf b)) E 0, Int.ofNat E)

/-- Embedding of uci_nr_encode_2bit: c0 and c1 come from bit_sequence[0..1],
c2 is their exclusive or, the switch emits the per-modulation pattern until
i >= E, and the function returns E. -/
def uci_nr_encode_2bit (m : Modulation) (a0 a1 : Nat) (E : Nat) :
    List UciBit × Int :=
  (encodeLoop E
    (pattern2bit m (uciBitOf a0) (uciBitOf a1) (uciBitOf (a0 ^^^ a1))) E 0,
   Int.ofNat E)

theorem pattern1bit_length (m : Modulation) (c0 : UciBit) :
    (pattern1bit m c0).length = pattern1len m := by
  cases m <;> rfl

theorem pattern2bit_length (m : Modulation) (c0 c1 c2 : UciBit) :
    (pattern2bit m c0 c1 c2).length = pattern2len m := by
  cases m <;> rfl

theorem pattern1len_pos (m : Modulation) : 0 < pattern1len m := by
  cases m <;> decide

theorem pattern2len_pos (m : Modulation) : 0 < pattern2len m := by
  cases m <;> decide

theorem ceil_div_step (n p : Nat) (hp : 0 < p) (hn : 0 < n) :
    (n + (p - 1)) / p = (n - p + (p - 1)) / p + 1 := by
  by_cases hc : p ≤ n
  · have h1 : n + (p - 1) = (n - p + (p - 1)) + p := by omega
    rw [h1, Nat.add_div_right _ hp]
  · have h1 : n - p = 0 := by omega
    rw [h1]
    have h2 : (0 + (p - 1)) / p = 0 := Nat.div_eq_of_lt (by omega)
    rw [h2]
    exact Nat.div_eq_of_lt_le (by omega) (by omega)

theorem encodeLoop_eq (pat : List UciBit) (hp : 0 < pat.length) :
    ∀ (fuel E i : Nat), E - i ≤ fuel →
      encodeLoop fuel pat E i =
        (List.replicate ((E - i + (pat.length - 1)) / pat.length) pat).flatten := by
  intro fuel
  induction fuel with
  | zero =>
    intro E i h
    have h0 : E - i = 0 := by omega
    rw [h0]
    have h2 : (0 + (pat.length - 1)) / pat.length = 0 :=
      Nat.div_eq_of_lt (by omega)
    rw [h2]
    rfl
  | succ fuel ih =>
    intro E i h
    by_cases hi : i < E
    · have hstep : encodeLoop (fuel + 1) pat E i
          = pat ++ encodeLoop fuel pat E (i + pat.length) := by
        simp [encodeLoop, hi]
      rw [hstep, ih E (i + pat.length) (by omega)]
      have hsub : E - (i + pat.length) = (E - i) - pat.length := by omega
      rw [hsub, ceil_div_step (E - i) pat.length hp (by omega),
        List.replicate_succ, List.flatten_cons]
    · have hstep : encodeLoop (fuel + 1) pat E i = [] := by
        simp [encodeLoop, hi]
      have h0 : E - i = 0 := by omega
      rw [hstep, h0]
      have h2 : (0 + (pat.length - 1)) / pat.length = 0 :=
        Nat.div_eq_of_lt (by omega)
      rw [h2]
      rfl

theorem length_flatten_replicate (k : Nat) (l : List UciBit) :
    ((List.replicate k l).flatten).length = k * l.length := by
  induction k with
  | zero => simp
  | succ k ih =>
    rw [List.replicate_succ, List.flatten_cons, List.length_append, ih,
      Nat.succ_mul, Nat.add_comm]

theorem mul_ceil_eq_iff (p E : Nat) (hp : 0 < p) :
    p * ((E + (p - 1)) / p) = E ↔ p ∣ E := by
  constructor
  · intro h
    exact ⟨_, h.symm⟩
  · rintro ⟨k, rfl⟩
    rw [Nat.mul_add_div hp, Nat.div_eq_of_lt (by omega), Nat.add_zero]

theorem encode1bit_output_length (m : Modulation) (b E : Nat) :
    (uci_nr_encode_1bit m b E).1.length
      = pattern1len m * ((E + (pattern1len m - 1)) / pattern1len m) := by
  have hp : 0 < (pattern1bit m (uciBitOf b)).length := by
    rw [pattern1bit_length]; exact pattern1len_pos m
  unfold uci_nr_encode_1bit
  rw [encodeLoop_eq (pattern1bit m (uciBitOf b)) hp E E 0 (by omega),
    length_flatten_replicate, pattern1bit_length, Nat.sub_zero, Nat.mul_comm]

theorem encode2bit_output_length (m : Modulation) (a0 a1 E : Nat) :
    (uci_nr_encode_2bit m a0 a1 E).1.length
      = pattern2len m * ((E + (pattern2len m - 1)) / pattern2len m) := by
  have hp : 0 < (pattern2bit m (uciBitOf a0) (uciBitOf a1)
      (uciBitOf (a0 ^^^ a1))).length := by
    rw [pattern2bit_length]; exact pattern2len_pos m
  unfold uci_nr_encode_2bit
  rw [encodeLoop_eq _ hp E E 0 (by omega), length_flatten_replicate,
    pattern2bit_length, Nat.sub_zero, Nat.mul_comm]

/-- Claim C2 fails on the code: the emission loops of uci_nr_encode_1bit
and uci_nr_encode_2bit never truncate the final pattern, so whenever E is
not a multiple of the pattern period they write past E.  For QPSK the A=1
encoder writes 4 bytes when asked for E = 3, and the A=2 encoder (period 3)
writes 9 bytes when asked for E = 8, an E that the PUSCH sizing for QPSK
can actually produce. -/
theorem uci_nr_encode_length_counterexample :
    (uci_nr_encode_1bit Modulation.qpsk 1 3).1.length = 4 ∧
    ¬ (uci_nr_encode_1bit Modulation.qpsk 1 3).1.length = 3 ∧
    (uci_nr_encode_2bit Modulation.qpsk 1 0 8).1.length = 9 ∧
    ¬ (uci_nr_encode_2bit Modulation.qpsk 1 0 8).1.length = 8 := by
  decide

/-- Claim C2 amended: for every supported modulation and every requested
length E, the A=1 and A=2 encoders return E, but the number of bytes
written is period * ceil(E / period) for the per-modulation pattern period
(Qm for A=1; 3, 3, 12, 18 or 24 for A=2): the output length equals E
exactly when the period divides E, and otherwise the final pattern is
emitted whole, overrunning E instead of truncating. -/
theorem uci_nr_encode_length_amended (m : Modulation) (a0 a1 E : Nat) :
    (uci_nr_encode_1bit m a0 E).2 = Int.ofNat E ∧
    (uci_nr_encode_2bit m a0 a1 E).2 = Int.ofNat E ∧
    (uci_nr_encode_1bit m a0 E).1.length
      = pattern1len m * ((E + (pattern1len m - 1)) / pattern1len m) ∧
    (uci_nr_encode_2bit m a0 a1 E).1.length
      = pattern2len m * ((E + (pattern2len m - 1)) / pattern2len m) ∧
    ((uci_nr_encode_1bit m a0 E).1.length = E ↔ pattern1len m ∣ E) ∧
    ((uci_nr_encode_2bit m a0 a1 E).1.length = E ↔ pattern2len m ∣ E) := by
  refine ⟨rfl, rfl, encode1bit_output_length m a0 E,
    encode2bit_output_length m a0 a1 E, ?_, ?_⟩
  · rw [encode1bit_output_length m a0 E]
    exact mul_ceil_eq_iff (pattern1len m) E (pattern1len_pos m)
  · rw [encode2bit_output_length m a0 a1 E]
    exact mul_ceil_eq_iff (pattern2len m) E (pattern2len_pos m)

/-- Claim C7: for A = 1, under every supported modulation the emitted
sequence is a whole number of Qm-bit symbols, each carrying the payload
sentinel first, then UCI_REPETITION, then Qm - 2 UCI_PLACEHOLDER bits (for
Qm = 1 just the payload sentinel); and for QPSK with payload bit 1 and
E = 8 the output is exactly UCI_1, REP repeated four times. -/
theorem uci_nr_encode_1bit_symbol_structure (m : Modulation) (b E : Nat) :
    (pattern1bit m (uciBitOf b)).length = bitsPerSymbol m ∧
    pattern1bit m (uciBitOf b)
      = (if bitsPerSymbol m = 1 then [uciBitOf b]
         else uciBitOf b :: UciBit.rep ::
           List.replicate (bitsPerSymbol m - 2) UciBit.ph) ∧
    (uci_nr_encode_1bit m b E).1
      = (List.replicate ((E + (bitsPerSymbol m - 1)) / bitsPerSymbol m)
          (pattern1bit m (uciBitOf b))).flatten ∧
    (uci_nr_encode_1bit Modulation.qpsk 1 8).1
      = [UciBit.b1, UciBit.rep, UciBit.b1, UciBit.rep,
         UciBit.b1, UciBit.rep, UciBit.b1, UciBit.rep] ∧
    (uci_nr_encode_1bit Modulation.qpsk 1 8).2 = 8 := by
  have hp : 0 < (pattern1bit m (uciBitOf b)).length := by
    rw [pattern1bit_length]; exact pattern1len_pos m
  have hq : bitsPerSymbol m = pattern1len m := by cases m <;> rfl
  refine ⟨?_, ?_, ?_, by decide, by decide⟩
  · rw [pattern1bit_length, hq]
  · cases m <;> simp [pattern1bit, bitsPerSymbol, List.replicate]
  · unfold uci_nr_encode_1bit
    rw [encodeLoop_eq (pattern1bit m (uciBitOf b)) hp E E 0 (by omega),
      Nat.sub_zero, hq, pattern1bit_length]

/-- Embedding of the corr[(j++) % 3] = x assignment of uci_nr_decode_2_bit:
the triple is overwritten at position j mod 3, not accumulated. -/
def corrUpdate (c : Int × Int × Int) (j : Nat) (x : Int) : Int × Int × Int :=
  if j % 3 = 0 then (x, c.2.1, c.2.2)
  else if j % 3 = 1 then (c.1, x, c.2.2)
  else (c.1, c.2.1, x)

/-- Embedding of the sampling loops of uci_nr_decode_2_bit: the float
corr[3] array starts zeroed and every sampled LLR is written into slot
j mod 3 with j counting samples from 0. -/
def corrFold (s : List Int) : (Int × Int × Int) × Nat :=
  s.foldl (fun a x => (corrUpdate a.1 a.2 x, a.2 + 1)) ((0, 0, 0), 0)

/-- Embedding of the Qm >= 2 sampling loop of uci_nr_decode_2_bit:
for (i = 0; i < E; i += Qm) the two leading LLRs llr[i] and llr[i+1] of
each symbol are sampled in order.  The fuel argument bounds the number of
iterations; the caller passes fuel = E, enough because i advances by
Qm >= 2 every iteration. -/
def sampleLoop : Nat → Nat → Nat → Nat → List Int → List Int
  | 0, _, _, _, _ => []
  | fuel + 1, Qm, E, i, llr =>
      if i < E then
        llr.getD i 0 :: llr.getD (i + 1) 0 :: sampleLoop fuel Qm E (i + Qm) llr
      else []

/-- The LLR values sampled by uci_nr_decode_2_bit in emission order: for
Qm = 1 the loop reads llr[i] for i < E / Qm; otherwise it reads the two
leading LLRs of each Qm-bit symbol. -/
def decode2samples (Qm E : Nat) (llr : List Int) : List Int :=
  if Qm = 1 then (List.range (E / Qm)).map (fun i => llr.getD i 0)
  else sampleLoop E Qm E 0 llr

/-- Embedding of uci_nr_decode_2_bit: after the sampling loop, c0, c1, c2
are the strict-positivity signs of the three corr slots, decoded_ok is the
parity check c2 == c0 xor c1, and bit_sequence[0..1] receive c0 and c1.
The returned triple is (decoded_ok, bit_sequence[0], bit_sequence[1]). -/
def uci_nr_decode_2_bit (m : Modulation) (llr : List Int) (E : Nat) :
    Bool × Nat × Nat :=
  let c := (corrFold (decode2samples (bitsPerSymbol m) E llr)).1
  let c0 := decide (0 < c.1)
  let c1 := decide (0 < c.2.1)
  let c2 := decide (0 < c.2.2)
  (c2 == xor c0 c1, cond c0 1 0, cond c1 1 0)

/-- Formalisation of claim C8 as written: the same decoder with the corr
slots ACCUMULATING the sampled LLRs (summing each residue class) instead of
being overwritten.  This definition follows the claim text, to be compared
with the embedding of the source. -/
def corrAccumFold (s : List Int) : (Int × Int × Int) × Nat :=
  s.foldl (fun a x =>
    ((if a.2 % 3 = 0 then (a.1.1 + x, a.1.2.1, a.1.2.2)
      else if a.2 % 3 = 1 then (a.1.1, a.1.2.1 + x, a.1.2.2)
      else (a.1.1, a.1.2.1, a.1.2.2 + x)), a.2 + 1)) ((0, 0, 0), 0)

/-- Claim-side variant of uci_nr_decode_2_bit, deriving c0, c1, c2 from the
accumulated correlations as the claim states. -/
def uci_nr_decode_2_bit_accum (m : Modulation) (llr : List Int) (E : Nat) :
    Bool × Nat × Nat :=
  let c := (corrAccumFold (decode2samples (bitsPerSymbol m) E llr)).1
  let c0 := decide (0 < c.1)
  let c1 := decide (0 < c.2.1)
  let c2 := decide (0 < c.2.2)
  (c2 == xor c0 c1, cond c0 1 0, cond c1 1 0)

/-- List of sampled values paired with their sample index. -/
def withIdx : List Int → Nat → List (Nat × Int)
  | [], _ => []
  | x :: r, j => (j, x) :: withIdx r (j + 1)

/-- The samples that land in corr slot k (k < 3), in sampling order. -/
def classSamples (s : List Int) (k : Nat) : List Int :=
  ((withIdx s 0).filter (fun p => p.1 % 3 == k)).map Prod.snd

/-- The value a corr slot holds after the loop: the LAST sample written to
it, or the initial 0.0 if the slot was never written. -/
def lastInClass (s : List Int) (k : Nat) : Int :=
  (classSamples s k).getLastD 0

theorem withIdx_append (l : List Int) (x : Int) :
    ∀ j, withIdx (l ++ [x]) j = withIdx l j ++ [(j + l.length, x)] := by
  induction l with
  | nil => intro j; simp [withIdx]
  | cons y r ih =>
    intro j
    have hl : j + (y :: r).length = (j + 1) + r.length := by
      simp only [List.length_cons]; omega
    show (j, y) :: withIdx (r ++ [x]) (j + 1)
        = ((j, y) :: withIdx r (j + 1)) ++ [(j + (y :: r).length, x)]
    rw [ih (j + 1), hl, List.cons_append]

theorem getLastD_append_singleton (l : List Int) (x d : Int) :
    (l ++ [x]).getLastD d = x := by
  induction l generalizing d with
  | nil => rfl
  | cons y r ih => rw [List.cons_append, List.getLastD_cons, ih]

theorem classSamples_append (s : List Int) (x : Int) (k : Nat) :
    classSamples (s ++ [x]) k
      = classSamples s k ++ (if s.length % 3 = k then [x] else []) := by
  unfold classSamples
  rw [withIdx_append s x 0, List.filter_append, List.map_append]
  by_cases h : s.length % 3 = k
  · simp [h]
  · simp [h]

theorem lastInClass_append (s : List Int) (x : Int) (k : Nat) :
    lastInClass (s ++ [x]) k
      = if s.length % 3 = k then x else lastInClass s k := by
  unfold lastInClass
  rw [classSamples_append]
  by_cases h : s.length % 3 = k
  · rw [if_pos h, if_pos h, getLastD_append_singleton]
  · rw [if_neg h, if_neg h, List.append_nil]

theorem corrFold_eq (s : List Int) :
    corrFold s = ((lastInClass s 0, lastInClass s 1, lastInClass s 2),
      s.length) := by
  induction s using List.reverseRecOn with
  | nil => rfl
  | append_singleton l x ih =>
    unfold corrFold at *
    rw [List.foldl_append, ih]
    simp only [List.foldl_cons, List.foldl_nil, List.length_append,
      List.length_singleton]
    rw [lastInClass_append, lastInClass_append, lastInClass_append]
    unfold corrUpdate
    have h3 : l.length % 3 = 0 ∨ l.length % 3 = 1 ∨ l.length % 3 = 2 := by
      omega
    rcases h3 with h | h | h <;> simp [h]

/-- Claim C8 fails on the code: corr[0..2] are overwritten, not
accumulated.  For QPSK with E = 6 and LLRs [3, 3, 3, -1, -1, -1] the
accumulated correlations are (2, 2, 2), whose signs fail the parity check
(so the claim predicts decoded_ok = false and bits (1, 1)), but the source
keeps only the last sample of each slot, (-1, -1, -1), passes the parity
check and returns decoded_ok = true with bits (0, 0). -/
theorem uci_nr_decode_2_bit_counterexample :
    uci_nr_decode_2_bit Modulation.qpsk [3, 3, 3, -1, -1, -1] 6
      = (true, 0, 0) ∧
    uci_nr_decode_2_bit_accum Modulation.qpsk [3, 3, 3, -1, -1, -1] 6
      = (false, 1, 1) := by
  constructor <;> rfl

/-- Claim C8 amended: c0, c1, c2 are the signs of the LAST non-placeholder
LLR sampled into each slot of the circular triple (the slots are
overwritten on each visit, not accumulated), decoded_ok is true iff
c2 = c0 xor c1 over those last-sample signs, and the decoded bits are
(c0, c1). -/
theorem uci_nr_decode_2_bit_last_sample (m : Modulation) (llr : List Int)
    (E : Nat) :
    uci_nr_decode_2_bit m llr E
      = ((decide (0 < lastInClass (decode2samples (bitsPerSymbol m) E llr) 2))
           == xor
            (decide (0 < lastInClass (decode2samples (bitsPerSymbol m) E llr) 0))
            (decide (0 < lastInClass (decode2samples (bitsPerSymbol m) E llr) 1)),
         cond (decide (0 < lastInClass (decode2samples (bitsPerSymbol m) E llr) 0)) 1 0,
         cond (decide (0 < lastInClass (decode2samples (bitsPerSymbol m) E llr) 1)) 1 0) := by
  unfold uci_nr_decode_2_bit
  rw [corrFold_eq]

/-- Modelled from the spec: the SRSLTE_CEIL(NUM, DEN) macro, the ceiling of
NUM / DEN (the macro lives in a header outside the provided sources; the
spec writes this quantity as the ceiling of A / C). -/
def SRSLTE_CEIL (n d : Nat) : Nat := (n + (d - 1)) / d

/-- Embedding of the segmentation-flag computation of
uci_nr_encode_11_1706_bit: I_seg = 1 iff (A >= 360 and E >= 1088) or
A >= 1013, else 0. -/
def enc_I_seg (A E_uci : Nat) : Nat :=
  if (360 ≤ A ∧ 1088 ≤ E_uci) ∨ 1013 ≤ A then 1 else 0

/-- Embedding of the code-block count of uci_nr_encode_11_1706_bit:
C starts at 1 and becomes 2 when I_seg = 1. -/
def enc_C (A E_uci : Nat) : Nat := if enc_I_seg A E_uci = 1 then 2 else 1

/-- Embedding of A_prime = SRSLTE_CEIL(A, C) * C in
uci_nr_encode_11_1706_bit. -/
def enc_A_prime (A E_uci : Nat) : Nat :=
  SRSLTE_CEIL A (enc_C A E_uci) * enc_C A E_uci

/-- Embedding of K_r = A_prime / C + L in uci_nr_encode_11_1706_bit. -/
def enc_K_r (A E_uci : Nat) : Nat :=
  enc_A_prime A E_uci / enc_C A E_uci + srslte_uci_nr_crc_len A

/-- Embedding of E_r = E_uci / C in uci_nr_encode_11_1706_bit. -/
def enc_E_r (A E_uci : Nat) : Nat := E_uci / enc_C A E_uci

/-- Embedding of the identical segmentation-flag computation duplicated in
uci_nr_decode_11_1706_bit. -/
def dec_I_seg (A E_uci : Nat) : Nat :=
  if (360 ≤ A ∧ 1088 ≤ E_uci) ∨ 1013 ≤ A then 1 else 0

/-- Embedding of the code-block count of uci_nr_decode_11_1706_bit. -/
def dec_C (A E_uci : Nat) : Nat := if dec_I_seg A E_uci = 1 then 2 else 1

/-- Embedding of A_prime in uci_nr_decode_11_1706_bit. -/
def dec_A_prime (A E_uci : Nat) : Nat :=
  SRSLTE_CEIL A (dec_C A E_uci) * dec_C A E_uci

/-- Embedding of K_r in uci_nr_decode_11_1706_bit. -/
def dec_K_r (A E_uci : Nat) : Nat :=
  dec_A_prime A E_uci / dec_C A E_uci + srslte_uci_nr_crc_len A

/-- Embedding of E_r in uci_nr_decode_11_1706_bit. -/
def dec_E_r (A E_uci : Nat) : Nat := E_uci / dec_C A E_uci

/-- Claim C3: on both the encoder and the decoder side of the polar path,
I_seg is 1 exactly when (A >= 360 and E_uci >= 1088) or A >= 1013,
C = I_seg + 1, A_prime is the least multiple of C that is at least A
(that is, C * ceil(A / C)), K_r = A_prime / C + L(A) and E_r = E_uci / C;
in particular A = 360 with E = 1087 gives C = 1, A = 360 with E = 1088
gives C = 2, and A = 1013 with E = 0 gives C = 2. -/
theorem uci_nr_segmentation_params (A E_uci : Nat) (h1 : 12 ≤ A)
    (h2 : A ≤ 1706) :
    (enc_I_seg A E_uci = 1 ↔ ((360 ≤ A ∧ 1088 ≤ E_uci) ∨ 1013 ≤ A)) ∧
    enc_C A E_uci = enc_I_seg A E_uci + 1 ∧
    (enc_C A E_uci ∣ enc_A_prime A E_uci ∧
      A ≤ enc_A_prime A E_uci ∧
      enc_A_prime A E_uci < A + enc_C A E_uci) ∧
    enc_K_r A E_uci
      = enc_A_prime A E_uci / enc_C A E_uci + srslte_uci_nr_crc_len A ∧
    enc_E_r A E_uci = E_uci / enc_C A E_uci ∧
    dec_I_seg A E_uci = enc_I_seg A E_uci ∧
    dec_C A E_uci = enc_C A E_uci ∧
    dec_A_prime A E_uci = enc_A_prime A E_uci ∧
    dec_K_r A E_uci = enc_K_r A E_uci ∧
    dec_E_r A E_uci = enc_E_r A E_uci ∧
    enc_C 360 1087 = 1 ∧ enc_C 360 1088 = 2 ∧ enc_C 1013 0 = 2 ∧
    dec_C 360 1087 = 1 ∧ dec_C 360 1088 = 2 ∧ dec_C 1013 0 = 2 := by
  refine ⟨?_, ?_, ?_, rfl, rfl, rfl, rfl, rfl, rfl, rfl,
    by decide, by decide, by decide, by decide, by decide, by decide⟩
  · unfold enc_I_seg
    by_cases h : (360 ≤ A ∧ 1088 ≤ E_uci) ∨ 1013 ≤ A
    · simp [h]
    · simp [h]
  · unfold enc_C enc_I_seg
    by_cases h : (360 ≤ A ∧ 1088 ≤ E_uci) ∨ 1013 ≤ A
    · simp [h]
    · simp [h]
  · by_cases h : (360 ≤ A ∧ 1088 ≤ E_uci) ∨ 1013 ≤ A
    · have hC : enc_C A E_uci = 2 := by simp [enc_C, enc_I_seg, h]
      unfold enc_A_prime SRSLTE_CEIL
      rw [hC]
      refine ⟨⟨(A + 1) / 2, by omega⟩, by omega, by omega⟩
    · have hC : enc_C A E_uci = 1 := by simp [enc_C, enc_I_seg, h]
      unfold enc_A_prime SRSLTE_CEIL
      rw [hC]
      refine ⟨⟨A, by omega⟩, by omega, by omega⟩

/-- Witness for uci_nr_segmentation_params at A = 360. -/
theorem uci_nr_segmentation_params_witness :
    enc_C 360 1088 = enc_I_seg 360 1088 + 1 ∧ enc_C 360 1087 = 1 ∧
    enc_C 360 1088 = 2 :=
  ⟨(uci_nr_segmentation_params 360 1088 (by decide) (by decide)).2.1,
   (uci_nr_segmentation_params 360 1087 (by decide)
     (by decide)).2.2.2.2.2.2.2.2.2.2.1,
   (uci_nr_segmentation_params 360 1088 (by decide)
     (by decide)).2.2.2.2.2.2.2.2.2.2.2.1⟩

/-- Embedding of the int8_t statement llr[i] *= -1 of
uci_nr_decode_11_1706_bit: the product is computed in int and converted
back to int8_t, so the result wraps modulo 256 into [-128, 127] (in
particular -128 maps to itself). -/
def negInt8 (x : Int) : Int := (128 - x) % 256 - 128

/-- Embedding of the negation loop of uci_nr_decode_11_1706_bit:
for (i = 0; i < E_r; i++) llr[i] *= -1 negates only the first n = E_r
entries of the buffer and leaves the rest untouched. -/
def negateFirst : Nat → List Int → List Int
  | _, [] => []
  | 0, l => l
  | n + 1, x :: r => negInt8 x :: negateFirst n r

/-- The LLR buffer of uci_nr_decode_11_1706_bit after its negation loop:
only the first E_r entries are negated. -/
def uci_nr_decode_11_1706_negated_llr (A E_uci : Nat) (llr : List Int) :
    List Int :=
  negateFirst (dec_E_r A E_uci) llr

/-- The per-block input handed to srslte_polar_rm_rx_c by
uci_nr_decode_11_1706_bit: the E_r entries starting at llr[E_r * r] of the
buffer after the negation loop. -/
def uci_nr_decode_rm_rx_input (A E_uci : Nat) (llr : List Int) (r : Nat) :
    List Int :=
  ((uci_nr_decode_11_1706_negated_llr A E_uci llr).drop
    (dec_E_r A E_uci * r)).take (dec_E_r A E_uci)

theorem negateFirst_getD_ge (l : List Int) :
    ∀ (n i : Nat) (d : Int), n ≤ i →
      (negateFirst n l).getD i d = l.getD i d := by
  induction l with
  | nil => intro n i d h; cases n <;> rfl
  | cons x r ih =>
    intro n i d h
    match n, i with
    | 0, i => rfl
    | n + 1, i + 1 =>
      show (negateFirst (n + 1) (x :: r)).getD (i + 1) d = r.getD i d
      rw [show negateFirst (n + 1) (x :: r)
            = negInt8 x :: negateFirst n r from rfl]
      rw [List.getD_cons_succ]
      exact ih n i d (by omega)

theorem negateFirst_getD_lt (l : List Int) :
    ∀ (n i : Nat) (d : Int), i < n → i < l.length →
      (negateFirst n l).getD i d = negInt8 (l.getD i d) := by
  induction l with
  | nil => intro n i d h hl; simp at hl
  | cons x r ih =>
    intro n i d h hl
    match n, i with
    | n + 1, 0 => rfl
    | n + 1, i + 1 =>
      rw [show negateFirst (n + 1) (x :: r)
            = negInt8 x :: negateFirst n r from rfl]
      rw [List.getD_cons_succ, List.getD_cons_succ]
      exact ih n i d (by omega) (by simpa using hl)

theorem getD_drop (l : List Int) :
    ∀ (n i : Nat) (d : Int), (l.drop n).getD i d = l.getD (n + i) d := by
  induction l with
  | nil => intro n i d; simp
  | cons x r ih =>
    intro n i d
    match n with
    | 0 => simp
    | n + 1 =>
      show (r.drop n).getD i d = (x :: r).getD (n + 1 + i) d
      rw [show n + 1 + i = (n + i) + 1 by omega, List.getD_cons_succ]
      exact ih n i d

theorem getD_take (l : List Int) :
    ∀ (n i : Nat) (d : Int), i < n → (l.take n).getD i d = l.getD i d := by
  induction l with
  | nil => intro n i d h; simp
  | cons x r ih =>
    intro n i d h
    match n, i with
    | n + 1, 0 => rfl
    | n + 1, i + 1 =>
      show (r.take n).getD i d = r.getD i d
      exact ih n i d (by omega)

theorem getD_replicate (a d : Int) :
    ∀ (n i : Nat), (List.replicate n a).getD i d = if i < n then a else d := by
  intro n
  induction n with
  | zero => intro i; simp
  | succ n ih =>
    intro i
    match i with
    | 0 => simp [List.replicate_succ]
    | i + 1 =>
      rw [List.replicate_succ, List.getD_cons_succ, ih i]
      by_cases h : i < n
      · rw [if_pos h, if_pos (by omega)]
      · rw [if_neg h, if_neg (by omega)]

/-- Claim C1 fails on the code (code bug): the negation loop of
uci_nr_decode_11_1706_bit runs only over the first E_r = E_uci / C entries
even though its own comment says Negate all LLR, so in a segmented
transport (C = 2) the second code block is handed LLRs that were never
sign-inverted.  At A = 360, E_uci = 1088 (C = 2, E_r = 544) with an
all-ones LLR buffer, block 0's first rate-match input is -1 as the claim
demands, but block 1's first rate-match input is still +1, the sign of the
raw input. -/
theorem uci_nr_llr_negation_code_bug :
    dec_C 360 1088 = 2 ∧
    dec_E_r 360 1088 = 544 ∧
    (uci_nr_decode_rm_rx_input 360 1088
      (List.replicate 1088 (1 : Int)) 0).getD 0 0 = -1 ∧
    (uci_nr_decode_rm_rx_input 360 1088
      (List.replicate 1088 (1 : Int)) 1).getD 0 0 = 1 ∧
    negInt8 1 = -1 := by
  have hE : dec_E_r 360 1088 = 544 := by decide
  refine ⟨by decide, hE, ?_, ?_, by decide⟩
  · unfold uci_nr_decode_rm_rx_input uci_nr_decode_11_1706_negated_llr
    rw [hE, getD_take _ _ _ _ (by omega), getD_drop]
    rw [show 544 * 0 + 0 = 0 by omega]
    rw [negateFirst_getD_lt _ _ _ _ (by omega)
      (by rw [List.length_replicate]; omega)]
    rw [getD_replicate]
    decide
  · unfold uci_nr_decode_rm_rx_input uci_nr_decode_11_1706_negated_llr
    rw [hE, getD_take _ _ _ _ (by omega), getD_drop]
    rw [show 544 * 1 + 0 = 544 by omega]
    rw [negateFirst_getD_ge _ _ _ _ (by omega)]
    rw [getD_replicate]
    decide

/-- Embedding of the srslte_uci_cfg_nr_t fields the claims need.  The
csi_has_part2 field stands for the result of the external predicate
srslte_csi_has_part2(cfg->csi, cfg->nof_csi), treated as a black box. -/
structure UciCfgNr where
  o_ack : Nat
  o_sr : Nat
  nof_csi : Nat
  K_sum : Nat
  csi_has_part2 : Bool

/-- Embedding of the 6.3.2.1.1 entry step of srslte_uci_nr_encode_pusch_ack:
the promotion branch writes bit_sequence = ((A == 0) ? 0 : ack[0]), 0 and
sets A = 2; the A == 0 branch returns success with nothing to multiplex
(modelled as none); otherwise the o_ack payload bits are copied.  The some
result carries the internal A and the bit_sequence contents. -/
def srslte_uci_nr_encode_pusch_ack_bits (cfg : UciCfgNr) (ack : List Nat) :
    Option (Nat × List Nat) :=
  if cfg.K_sum = 0 ∧ 1 < cfg.nof_csi ∧ cfg.csi_has_part2 = false ∧
      cfg.o_ack < 2 then
    some (2, [if cfg.o_ack = 0 then 0 else ack.getD 0 0, 0])
  else if cfg.o_ack = 0 then none
  else some (cfg.o_ack, ack.take cfg.o_ack)

/-- Embedding of the matching promotion in srslte_uci_nr_decode_pusch_ack:
A starts as cfg->o_ack and becomes 2 under the same condition. -/
def srslte_uci_nr_decode_pusch_ack_A (cfg : UciCfgNr) : Nat :=
  if cfg.K_sum = 0 ∧ 1 < cfg.nof_csi ∧ cfg.csi_has_part2 = false ∧
      cfg.o_ack < 2 then 2
  else cfg.o_ack

/-- Claim C4: whenever K_sum = 0, nof_csi > 1, csi_part2_present is false
and A < 2, the PUSCH ACK encoder promotes the payload to A = 2 with bits
((A == 0 ? 0 : ack[0]), 0), the decoder applies the same promotion, and in
particular for K_sum = 0, nof_csi = 2, csi_part2_present = false,
o_ack = 1, ack = [1] the internal A becomes 2 with packed bits [1, 0]. -/
theorem srslte_uci_nr_pusch_ack_promotion (cfg : UciCfgNr) (ack : List Nat)
    (hk : cfg.K_sum = 0) (hc : 1 < cfg.nof_csi)
    (hp : cfg.csi_has_part2 = false) (ha : cfg.o_ack < 2) :
    srslte_uci_nr_encode_pusch_ack_bits cfg ack
      = some (2, [if cfg.o_ack = 0 then 0 else ack.getD 0 0, 0]) ∧
    srslte_uci_nr_decode_pusch_ack_A cfg = 2 ∧
    srslte_uci_nr_encode_pusch_ack_bits
      { o_ack := 1, o_sr := 0, nof_csi := 2, K_sum := 0,
        csi_has_part2 := false } [1] = some (2, [1, 0]) ∧
    srslte_uci_nr_decode_pusch_ack_A
      { o_ack := 1, o_sr := 0, nof_csi := 2, K_sum := 0,
        csi_has_part2 := false } = 2 := by
  refine ⟨?_, ?_, by decide, by decide⟩
  · unfold srslte_uci_nr_encode_pusch_ack_bits
    rw [if_pos ⟨hk, hc, hp, ha⟩]
  · unfold srslte_uci_nr_decode_pusch_ack_A
    rw [if_pos ⟨hk, hc, hp, ha⟩]

/-- Witness for srslte_uci_nr_pusch_ack_promotion at the S6 scenario. -/
theorem srslte_uci_nr_pusch_ack_promotion_witness :
    srslte_uci_nr_encode_pusch_ack_bits
      { o_ack := 1, o_sr := 0, nof_csi := 2, K_sum := 0,
        csi_has_part2 := false } [1] = some (2, [1, 0]) ∧
    srslte_uci_nr_decode_pusch_ack_A
      { o_ack := 1, o_sr := 0, nof_csi := 2, K_sum := 0,
        csi_has_part2 := false } = 2 := by
  have h := srslte_uci_nr_pusch_ack_promotion
    { o_ack := 1, o_sr := 0, nof_csi := 2, K_sum := 0,
      csi_has_part2 := false } [1] rfl (by decide) rfl (by decide)
  exact ⟨h.2.2.1, h.2.2.2⟩

/-- Modelled from the spec: the PUCCH formats of srslte_pucch_nr_format_t
(the enum lives in a header outside the provided sources; formats 0 and 1
fall into the default branch of the switch). -/
inductive PucchFormat where
  | f0 : PucchFormat
  | f1 : PucchFormat
  | f2 : PucchFormat
  | f3 : PucchFormat
  | f4 : PucchFormat
deriving DecidableEq, Repr

/-- Embedding of the srslte_pucch_nr_resource_t fields used by
srslte_uci_nr_pucch_format_2_3_4_E (occ_lenth spelled as in the source). -/
structure PucchResource where
  format : PucchFormat
  nof_symbols : Nat
  nof_prb : Nat
  enable_pi_bpsk : Bool
  occ_lenth : Nat

/-- Embedding of srslte_uci_nr_pucch_format_2_3_4_E (the resource is a
value here, so the NULL check of the source cannot fire). -/
def srslte_uci_nr_pucch_format_2_3_4_E (r : PucchResource) : Int :=
  match r.format with
  | PucchFormat.f2 => Int.ofNat (16 * r.nof_symbols * r.nof_prb)
  | PucchFormat.f3 =>
      if r.enable_pi_bpsk = false then
        Int.ofNat (24 * r.nof_symbols * r.nof_prb)
      else Int.ofNat (12 * r.nof_symbols * r.nof_prb)
  | PucchFormat.f4 =>
      if r.occ_lenth ≠ 1 ∧ r.occ_lenth ≠ 2 then SRSLTE_ERROR
      else if r.enable_pi_bpsk = false then
        Int.ofNat (24 * r.nof_symbols / r.occ_lenth)
      else Int.ofNat (12 * r.nof_symbols / r.occ_lenth)
  | _ => SRSLTE_ERROR

/-- Embedding of uci_nr_pucch_E_uci: the commented-out CSI1+CSI2 rejection
is dead, so the function returns E_tot unchanged for every input. -/
def uci_nr_pucch_E_uci (pucch_cfg : PucchResource) (uci_cfg : UciCfgNr)
    (E_tot : Int) : Int :=
  E_tot

/-- Claim C6: pucch_E returns 16 n_sym n_prb for Format 2; 24 n_sym n_prb
(12 with pi/2-BPSK) for Format 3; 24 n_sym / occ (12 with pi/2-BPSK) for
Format 4 with occ in {1, 2}, and an error for every other occ (occ = 0 or
occ >= 3); E_uci always equals E_tot; and Format 3 with 8 symbols and
1 PRB gives 192 without pi/2-BPSK and 96 with it. -/
theorem srslte_uci_nr_pucch_E_formulas (nsym nprb occ : Nat) (pi : Bool)
    (cfg : UciCfgNr) (r : PucchResource) (x : Int) :
    srslte_uci_nr_pucch_format_2_3_4_E
      { format := PucchFormat.f2, nof_symbols := nsym, nof_prb := nprb,
        enable_pi_bpsk := pi, occ_lenth := occ }
      = Int.ofNat (16 * nsym * nprb) ∧
    srslte_uci_nr_pucch_format_2_3_4_E
      { format := PucchFormat.f3, nof_symbols := nsym, nof_prb := nprb,
        enable_pi_bpsk := false, occ_lenth := occ }
      = Int.ofNat (24 * nsym * nprb) ∧
    srslte_uci_nr_pucch_format_2_3_4_E
      { format := PucchFormat.f3, nof_symbols := nsym, nof_prb := nprb,
        enable_pi_bpsk := true, occ_lenth := occ }
      = Int.ofNat (12 * nsym * nprb) ∧
    srslte_uci_nr_pucch_format_2_3_4_E
      { format := PucchFormat.f4, nof_symbols := nsym, nof_prb := nprb,
        enable_pi_bpsk := false, occ_lenth := 1 }
      = Int.ofNat (24 * nsym) ∧
    srslte_uci_nr_pucch_format_2_3_4_E
      { format := PucchFormat.f4, nof_symbols := nsym, nof_prb := nprb,
        enable_pi_bpsk := false, occ_lenth := 2 }
      = Int.ofNat (24 * nsym / 2) ∧
    srslte_uci_nr_pucch_format_2_3_4_E
      { format := PucchFormat.f4, nof_symbols := nsym, nof_prb := nprb,
        enable_pi_bpsk := true, occ_lenth := 1 }
      = Int.ofNat (12 * nsym) ∧
    srslte_uci_nr_pucch_format_2_3_4_E
      { format := PucchFormat.f4, nof_symbols := nsym, nof_prb := nprb,
        enable_pi_bpsk := true, occ_lenth := 2 }
      = Int.ofNat (12 * nsym / 2) ∧
    srslte_uci_nr_pucch_format_2_3_4_E
      { format := PucchFormat.f4, nof_symbols := nsym, nof_prb := nprb,
        enable_pi_bpsk := pi, occ_lenth := 0 } = SRSLTE_ERROR ∧
    srslte_uci_nr_pucch_format_2_3_4_E
      { format := PucchFormat.f4, nof_symbols := nsym, nof_prb := nprb,
        enable_pi_bpsk := pi, occ_lenth := occ + 3 } = SRSLTE_ERROR ∧
    uci_nr_pucch_E_uci r cfg x = x ∧
    srslte_uci_nr_pucch_format_2_3_4_E
      { format := PucchFormat.f3, nof_symbols := 8, nof_prb := 1,
        enable_pi_bpsk := false, occ_lenth := 1 } = 192 ∧
    srslte_uci_nr_pucch_format_2_3_4_E
      { format := PucchFormat.f3, nof_symbols := 8, nof_prb := 1,
        enable_pi_bpsk := true, occ_lenth := 1 } = 96 := by
  refine ⟨rfl, rfl, ?_, ?_, ?_, ?_, ?_, ?_, ?_, rfl, by decide, by decide⟩
  · show (if (true : Bool) = false then Int.ofNat (24 * nsym * nprb)
      else Int.ofNat (12 * nsym * nprb)) = Int.ofNat (12 * nsym * nprb)
    rw [if_neg (by decide)]
  · show (if (1 : Nat) ≠ 1 ∧ (1 : Nat) ≠ 2 then SRSLTE_ERROR
      else if (false : Bool) = false then Int.ofNat (24 * nsym / 1)
      else Int.ofNat (12 * nsym / 1)) = Int.ofNat (24 * nsym)
    rw [if_neg (by omega), if_pos rfl, Nat.div_one]
  · show (if (2 : Nat) ≠ 1 ∧ (2 : Nat) ≠ 2 then SRSLTE_ERROR
      else if (false : Bool) = false then Int.ofNat (24 * nsym / 2)
      else Int.ofNat (12 * nsym / 2)) = Int.ofNat (24 * nsym / 2)
    rw [if_neg (by omega), if_pos rfl]
  · show (if (1 : Nat) ≠ 1 ∧ (1 : Nat) ≠ 2 then SRSLTE_ERROR
      else if (true : Bool) = false then Int.ofNat (24 * nsym / 1)
      else Int.ofNat (12 * nsym / 1)) = Int.ofNat (12 * nsym)
    rw [if_neg (by omega), if_neg (by decide), Nat.div_one]
  · show (if (2 : Nat) ≠ 1 ∧ (2 : Nat) ≠ 2 then SRSLTE_ERROR
      else if (true : Bool) = false then Int.ofNat (24 * nsym / 2)
      else Int.ofNat (12 * nsym / 2)) = Int.ofNat (12 * nsym / 2)
    rw [if_neg (by omega), if_neg (by decide)]
  · show (if (0 : Nat) ≠ 1 ∧ (0 : Nat) ≠ 2 then SRSLTE_ERROR
      else if pi = false then Int.ofNat (24 * nsym / 0)
      else Int.ofNat (12 * nsym / 0)) = SRSLTE_ERROR
    rw [if_pos (by omega)]
  · show (if occ + 3 ≠ 1 ∧ occ + 3 ≠ 2 then SRSLTE_ERROR
      else if pi = false then Int.ofNat (24 * nsym / (occ + 3))
      else Int.ofNat (12 * nsym / (occ + 3))) = SRSLTE_ERROR
    rw [if_pos (by omega)]

/-- The coding scheme a payload size is dispatched to by uci_nr_encode and
uci_nr_decode. -/
inductive UciCodePath where
  | one_bit : UciCodePath
  | two_bit : UciCodePath
  | small_block : UciCodePath
  | polar : UciCodePath
  | invalid : UciCodePath
deriving DecidableEq, Repr

/-- Embedding of the payload-size dispatch of uci_nr_encode: A == 1, then
A == 2, then A <= SRSLTE_FEC_BLOCK_MAX_NOF_BITS (11), then
A < SRSLTE_UCI_NR_MAX_NOF_BITS (1706), else the error fallthrough. -/
def uci_nr_encode_dispatch (A : Nat) : UciCodePath :=
  if A = 1 then UciCodePath.one_bit
  else if A = 2 then UciCodePath.two_bit
  else if A ≤ SRSLTE_FEC_BLOCK_MAX_NOF_BITS then UciCodePath.small_block
  else if A < SRSLTE_UCI_NR_MAX_NOF_BITS then UciCodePath.polar
  else UciCodePath.invalid

/-- Embedding of the return value of uci_nr_encode, with the return values
of the four sub-encoders abstracted as parameters: the fallthrough branch
returns SRSLTE_ERROR. -/
def uci_nr_encode_ret (e1 e2 e3 e4 : Int) (A : Nat) : Int :=
  if A = 1 then e1
  else if A = 2 then e2
  else if A ≤ SRSLTE_FEC_BLOCK_MAX_NOF_BITS then e3
  else if A < SRSLTE_UCI_NR_MAX_NOF_BITS then e4
  else SRSLTE_ERROR

/-- Claim C9 fails on the code at its upper boundary: the polar guard of
uci_nr_encode is the STRICT comparison A < SRSLTE_UCI_NR_MAX_NOF_BITS with
SRSLTE_UCI_NR_MAX_NOF_BITS = 1706, so A = 1706 is not dispatched to the
polar coder; it falls through to the error return, whatever the
sub-encoders would have returned. -/
theorem uci_nr_encode_dispatch_counterexample :
    uci_nr_encode_dispatch 1706 = UciCodePath.invalid ∧
    ¬ uci_nr_encode_dispatch 1706 = UciCodePath.polar ∧
    uci_nr_encode_ret 0 0 0 0 1706 = SRSLTE_ERROR := by
  decide

/-- Claim C9 amended: uci_nr_encode dispatches every A with
12 <= A <= 1705 to the polar coder, and returns SRSLTE_ERROR for every
A >= 1706 (not 1707): the strict guard A < 1706 excludes A = 1706. -/
theorem uci_nr_encode_dispatch_amended (A : Nat) :
    (12 ≤ A → A < SRSLTE_UCI_NR_MAX_NOF_BITS →
      uci_nr_encode_dispatch A = UciCodePath.polar) ∧
    (SRSLTE_UCI_NR_MAX_NOF_BITS ≤ A →
      uci_nr_encode_dispatch A = UciCodePath.invalid ∧
      ∀ e1 e2 e3 e4 : Int, uci_nr_encode_ret e1 e2 e3 e4 A = SRSLTE_ERROR) := by
  unfold SRSLTE_UCI_NR_MAX_NOF_BITS
  constructor
  · intro h1 h2
    unfold uci_nr_encode_dispatch SRSLTE_FEC_BLOCK_MAX_NOF_BITS
      SRSLTE_UCI_NR_MAX_NOF_BITS
    rw [if_neg (by omega), if_neg (by omega), if_neg (by omega),
      if_pos (by omega)]
  · intro h
    constructor
    · unfold uci_nr_encode_dispatch SRSLTE_FEC_BLOCK_MAX_NOF_BITS
        SRSLTE_UCI_NR_MAX_NOF_BITS
      rw [if_neg (by omega), if_neg (by omega), if_neg (by omega),
        if_neg (by omega)]
    · intro e1 e2 e3 e4
      unfold uci_nr_encode_ret SRSLTE_FEC_BLOCK_MAX_NOF_BITS
        SRSLTE_UCI_NR_MAX_NOF_BITS
      rw [if_neg (by omega), if_neg (by omega), if_neg (by omega),
        if_neg (by omega)]

/-- Witness for uci_nr_encode_dispatch_amended at A = 12 and A = 1706. -/
theorem uci_nr_encode_dispatch_amended_witness :
    uci_nr_encode_dispatch 12 = UciCodePath.polar ∧
    uci_nr_encode_dispatch 1706 = UciCodePath.invalid ∧
    uci_nr_encode_ret 7 7 7 7 1706 = SRSLTE_ERROR :=
  ⟨(uci_nr_encode_dispatch_amended 12).1 (by decide) (by decide),
   ((uci_nr_encode_dispatch_amended 1706).2 (by decide)).1,
   ((uci_nr_encode_dispatch_amended 1706).2 (by decide)).2 7 7 7 7⟩

/-- Embedding of uci_nr_decode, with the four sub-decoders abstracted as
parameters: each d is the pair (return code, value the sub-decoder would
store through the valid pointer, none when untouched).  A sub-decoder
branch maps a negative sub-return to SRSLTE_ERROR and otherwise falls
through to the final return SRSLTE_SUCCESS; the invalid-size branch only
logs an error, so it reaches the final return with valid never written. -/
def uci_nr_decode_dispatch (d1 d2 d3 d4 : Int × Option Bool) (A : Nat) :
    Int × Option Bool :=
  if A = 1 then
    if d1.1 < SRSLTE_SUCCESS then (SRSLTE_ERROR, d1.2)
    else (SRSLTE_SUCCESS, d1.2)
  else if A = 2 then
    if d2.1 < SRSLTE_SUCCESS then (SRSLTE_ERROR, d2.2)
    else (SRSLTE_SUCCESS, d2.2)
  else if A ≤ 11 then
    if d3.1 < SRSLTE_SUCCESS then (SRSLTE_ERROR, d3.2)
    else (SRSLTE_SUCCESS, d3.2)
  else if A < SRSLTE_UCI_NR_MAX_NOF_BITS then
    if d4.1 < SRSLTE_SUCCESS then (SRSLTE_ERROR, d4.2)
    else (SRSLTE_SUCCESS, d4.2)
  else (SRSLTE_SUCCESS, none)

/-- Claim C10: for every A >= SRSLTE_UCI_NR_MAX_NOF_BITS (1706) and
whatever the sub-decoders would do on any LLR input, uci_nr_decode takes
the invalid-size branch, which logs but does not return, so the function
returns SRSLTE_SUCCESS with the caller's valid flag never assigned. -/
theorem uci_nr_decode_dispatch_invalid_size (d1 d2 d3 d4 : Int × Option Bool)
    (A : Nat) (h : SRSLTE_UCI_NR_MAX_NOF_BITS ≤ A) :
    uci_nr_decode_dispatch d1 d2 d3 d4 A = (SRSLTE_SUCCESS, none) := by
  unfold SRSLTE_UCI_NR_MAX_NOF_BITS at h
  unfold uci_nr_decode_dispatch SRSLTE_UCI_NR_MAX_NOF_BITS
  rw [if_neg (by omega), if_neg (by omega), if_neg (by omega),
    if_neg (by omega)]

/-- Witness for uci_nr_decode_dispatch_invalid_size at A = 1706 with
sub-decoders that would have succeeded and set valid. -/
theorem uci_nr_decode_dispatch_invalid_size_witness :
    uci_nr_decode_dispatch (0, some true) (0, some true) (0, some true)
      (0, some true) 1706 = (SRSLTE_SUCCESS, none) :=
  uci_nr_decode_dispatch_invalid_size (0, some true) (0, some true)
    (0, some true) (0, some true) 1706 (by decide)
